import Mathlib

/-!
Verification of the QUIC/HTTP-3 session validator (`tools/quic_validator.py`).

The Python source is shallowly embedded: the `HTTP3Client` event handler
becomes a pure step function on an explicit client state, the two polling
loops (handshake wait, response wait) become a fuel-bounded poll function
over discrete 10-millisecond ticks, and the two checks, the orchestrator
and the exit-code logic become total functions from an abstract transport
outcome to `TestResult` values.  Byte strings are modelled as `List Nat`,
header names and values as `String`.
-/

/-- Mirrors the `TestResult` dataclass: name, passed flag, message,
duration in milliseconds, optional details. -/
structure TestResult where
  test_name : String
  passed : Bool
  message : String
  duration_ms : Nat
  details : Option String
deriving Repr, DecidableEq

/-- Per-stream response state: the header list stored on `HeadersReceived`
and the body bytes accumulated from `DataReceived` events (the
`{'headers': ..., 'data': b''}` dict of the source). -/
structure PendingResponse where
  headers : List (String × String)
  data : List Nat
deriving Repr, DecidableEq

/-- Typed HTTP/3 application events handed back by `self._h3.handle_event`. -/
inductive H3Event where
  | headersReceived (stream_id : Nat) (headers : List (String × String))
  | dataReceived (stream_id : Nat) (data : List Nat)
deriving Repr, DecidableEq

/-- One low-level QUIC event as seen by `quic_event_received`: whether its
class name is `HandshakeCompleted`, and the list of HTTP/3 events that
`self._h3.handle_event` yields for it. -/
structure QuicEventM where
  isHandshakeCompleted : Bool
  h3Events : List H3Event
deriving Repr, DecidableEq

/-- The mutable state of `HTTP3Client`: the `_responses` dict (modelled as
an insertion-ordered association list) and the `_handshake_complete` flag. -/
structure ClientState where
  _responses : List (Nat × PendingResponse)
  _handshake_complete : Bool
deriving Repr, DecidableEq

/-- Python dict read `m[sid]` / `sid in m`. -/
def lookupResponse (m : List (Nat × PendingResponse)) (sid : Nat) : Option PendingResponse :=
  match m with
  | [] => none
  | (k, v) :: rest => if k = sid then some v else lookupResponse rest sid

/-- Python dict write `m[sid] = p`: overwrites in place, preserving
insertion order, or appends a new entry. -/
def setResponse (m : List (Nat × PendingResponse)) (sid : Nat) (p : PendingResponse) :
    List (Nat × PendingResponse) :=
  match m with
  | [] => [(sid, p)]
  | (k, v) :: rest => if k = sid then (sid, p) :: rest else (k, v) :: setResponse rest sid p

/-- Body of the `for h3_event in self._h3.handle_event(event)` loop:
`HeadersReceived` stores a fresh `{'headers': headers, 'data': b''}` entry
(overwriting any previous one); `DataReceived` appends to the body when the
stream is known and is silently dropped otherwise. -/
def handleH3Event (m : List (Nat × PendingResponse)) (e : H3Event) :
    List (Nat × PendingResponse) :=
  match e with
  | .headersReceived sid hs => setResponse m sid ⟨hs, []⟩
  | .dataReceived sid d =>
      match lookupResponse m sid with
      | some p => setResponse m sid ⟨p.headers, p.data ++ d⟩
      | none => m

/-- `HTTP3Client.quic_event_received`: sets `_handshake_complete` when the
event's class name is `HandshakeCompleted`, then folds every produced
HTTP/3 event into `_responses`. -/
def quic_event_received (st : ClientState) (ev : QuicEventM) : ClientState :=
  { _handshake_complete :=
      if ev.isHandshakeCompleted then true else st._handshake_complete,
    _responses := ev.h3Events.foldl handleH3Event st._responses }

/-- Processing a whole sequence of QUIC events, in arrival order. -/
def processEvents (st : ClientState) (evs : List QuicEventM) : ClientState :=
  evs.foldl quic_event_received st

/-- `HTTP3Client.is_handshake_complete`. -/
def is_handshake_complete (st : ClientState) : Bool :=
  st._handshake_complete

/-- Whether a list of HTTP/3 events contains a `HeadersReceived` for the
given stream. -/
def h3HasHeadersFor (sid : Nat) : List H3Event → Bool
  | [] => false
  | .headersReceived s _ :: rest => s = sid || h3HasHeadersFor sid rest
  | .dataReceived _ _ :: rest => h3HasHeadersFor sid rest

/-- Concatenation, in arrival order, of the bytes of all `DataReceived`
events for the given stream. -/
def h3DataFor (sid : Nat) : List H3Event → List Nat
  | [] => []
  | .headersReceived _ _ :: rest => h3DataFor sid rest
  | .dataReceived s d :: rest =>
      (if s = sid then d else []) ++ h3DataFor sid rest

/-- `h3HasHeadersFor` lifted to QUIC event sequences. -/
def hasHeadersFor (sid : Nat) (evs : List QuicEventM) : Bool :=
  evs.any (fun ev => h3HasHeadersFor sid ev.h3Events)

/-- `h3DataFor` lifted to QUIC event sequences. -/
def dataFor (sid : Nat) : List QuicEventM → List Nat
  | [] => []
  | ev :: rest => h3DataFor sid ev.h3Events ++ dataFor sid rest

/-- The polled condition: the awaited event (handshake completion, or the
stream's appearance in `_responses`) has happened by time `t` (in
milliseconds).  `c = none` means it never happens. -/
def flagAt (c : Option Nat) (t : Nat) : Bool :=
  match c with
  | none => false
  | some v => v ≤ t

/-- Both polling loops of the source
(`while not <cond>: if time.time() - start > timeout: raise TimeoutError; await asyncio.sleep(0.01)`)
over discrete time: the condition is checked at `t = 0, 10, 20, ...` ms,
the strict comparison `elapsed > timeout` is checked only when the
condition is still false.  Returns `true` when the wait succeeds and
`false` on `TimeoutError`.  `fuel` bounds the recursion. -/
def pollLoop (c : Option Nat) (timeoutMs : Nat) : Nat → Nat → Bool
  | 0, _ => false
  | fuel + 1, t =>
      if flagAt c t then true
      else if timeoutMs < t then false
      else pollLoop c timeoutMs fuel (t + 10)

/-- A complete wait with enough fuel to reach the first poll past the
timeout. -/
def pollWait (c : Option Nat) (timeoutMs : Nat) : Bool :=
  pollLoop c timeoutMs (timeoutMs / 10 + 2) 0

/-- The constant `timeout = 5.0` hard-coded inside
`HTTP3Client.send_request`, in seconds. -/
def send_request_timeout_s : Nat := 5

/-- The wait performed by `send_request`'s polling loop
(`while stream_id not in self._responses`), given the time in
milliseconds at which a `PendingResponse` first exists for the request's
stream (`none` if never).  Uses the hard-coded 5-second timeout. -/
def send_request_wait (arrival : Option Nat) : Bool :=
  pollWait arrival (send_request_timeout_s * 1000)

/-- The `QuicValidator` constructor state: host, port and the configured
per-check timeout (CLI `-t` or `--timeout`, default 5 seconds). -/
structure QuicValidatorCfg where
  host : String
  port : Nat
  timeout : Nat
deriving Repr, DecidableEq

/-- Default configuration from the argument parser:
host `127.0.0.1`, port `8443`, timeout 5 s. -/
def defaultCfg : QuicValidatorCfg :=
  { host := "127.0.0.1", port := 8443, timeout := 5 }

/-- The timeout used by the handshake wait in `test_quic_handshake`
(`timeout = self.timeout`), in seconds. -/
def handshake_wait_timeout_s (cfg : QuicValidatorCfg) : Nat :=
  cfg.timeout

/-- Abstract outcome of driving one handshake-check connection: either the
connection is established and the handshake-complete flag turns true at
the given millisecond (`none` = never), or `connect` itself raises an
exception with the given type name and message. -/
inductive HandshakeOutcome where
  | completesAt (c : Option Nat)
  | connectExn (ename : String) (emsg : String)
deriving Repr, DecidableEq

/-- Abstract outcome of driving one request-check connection: either a
response (headers and body) is delivered on the request's stream before
the request timeout, or an exception with the given type name and message
is raised (a request timeout surfaces here as `exn "TimeoutError"
"Request timeout"`). -/
inductive RequestOutcome where
  | response (headers : List (String × String)) (data : List Nat)
  | exn (ename : String) (emsg : String)
deriving Repr, DecidableEq

/-- `QuicValidator.test_quic_handshake`: polls `is_handshake_complete`
with the configured timeout (seconds); a `TimeoutError` — whether raised
by the polling loop or by anything inside the `try` block — produces the
fixed "Handshake timeout" result, any other exception the
"Handshake failed: <type>" result with `str(e)` as details.
`dur` is the measured wall-clock duration in milliseconds. -/
def test_quic_handshake (out : HandshakeOutcome) (timeoutS : Nat) (dur : Nat) : TestResult :=
  match out with
  | .completesAt c =>
      if pollWait c (timeoutS * 1000) then
        { test_name := "QUIC Handshake", passed := true,
          message := "Handshake completed successfully", duration_ms := dur,
          details := some "Protocol: ['h3']" }
      else
        { test_name := "QUIC Handshake", passed := false,
          message := "Handshake timeout", duration_ms := dur,
          details := some "Server did not complete handshake within timeout period" }
  | .connectExn ename emsg =>
      if ename = "TimeoutError" then
        { test_name := "QUIC Handshake", passed := false,
          message := "Handshake timeout", duration_ms := dur,
          details := some "Server did not complete handshake within timeout period" }
      else
        { test_name := "QUIC Handshake", passed := false,
          message := "Handshake failed: " ++ ename, duration_ms := dur,
          details := some emsg }

/-- The `for name, value in response['headers']` loop with `break`:
the value of the first `:status` entry, if any. -/
def findStatus : List (String × String) → Option String
  | [] => none
  | (n, v) :: rest => if n = ":status" then some v else findStatus rest

/-- The message of a successful `test_http3_request`:
`f"Received HTTP response (status: {status})" if status else "No status in response"`.
Python's `if status` is a truthiness test, false both for `None` and for
an empty string, so a present-but-empty `:status` value also produces
"No status in response". -/
def statusMessage (status : Option String) : String :=
  match status with
  | some s =>
      if s = "" then "No status in response"
      else "Received HTTP response (status: " ++ s ++ ")"
  | none => "No status in response"

/-- `QuicValidator.test_http3_request`: on a delivered response, passes
iff a `:status` pseudo-header is found; every exception (including
`TimeoutError` from `send_request`) is caught by the single
`except Exception` handler. -/
def test_http3_request (out : RequestOutcome) (dur : Nat) : TestResult :=
  match out with
  | .response headers data =>
      { test_name := "HTTP/3 Request", passed := (findStatus headers).isSome,
        message := statusMessage (findStatus headers), duration_ms := dur,
        details := some ("Response size: " ++ toString data.length ++ " bytes") }
  | .exn ename emsg =>
      { test_name := "HTTP/3 Request", passed := false,
        message := "Request failed: " ++ ename, duration_ms := dur,
        details := some emsg }

/-- One run's abstract environment: the transport outcome and measured
duration of each of the two checks.  Each check owns a fresh connection,
so the outcomes are independent inputs. -/
structure RunEnv where
  handshake : HandshakeOutcome
  hdur : Nat
  request : RequestOutcome
  rdur : Nat
deriving Repr, DecidableEq

/-- `QuicValidator.run_all_tests`: runs the two checks in their fixed
order, appending one `TestResult` each, with `await asyncio.sleep(0.5)`
(500 ms) after each check.  Returns the results list and the list of
pauses in milliseconds. -/
def run_all_tests (timeoutS : Nat) (env : RunEnv) : List TestResult × List Nat :=
  ([test_quic_handshake env.handshake timeoutS env.hdur,
    test_http3_request env.request env.rdur],
   [500, 500])

/-- `QuicValidator.print_summary`'s return value: `failed == 0`. -/
def print_summary_verdict (rs : List TestResult) : Bool :=
  (rs.filter (fun r => !r.passed)).length = 0

/-- `main`: exits 1 before any check when aioquic is unavailable;
otherwise runs all tests and exits 0 iff `print_summary` reported no
failure.  Returns the exit code together with the results of the checks
that were executed. -/
def mainRun (aioquicAvailable : Bool) (timeoutS : Nat) (env : RunEnv) :
    Nat × List TestResult :=
  if aioquicAvailable then
    let rs := (run_all_tests timeoutS env).1
    (if print_summary_verdict rs then 0 else 1, rs)
  else
    (1, [])

/-- Boolean check that `pat` is a prefix of `s` (character lists). -/
def isPrefixOfB : List Char → List Char → Bool
  | [], _ => true
  | _ :: _, [] => false
  | a :: as, b :: bs => if a = b then isPrefixOfB as bs else false

/-- Boolean substring check on character lists. -/
def containsB (pat : List Char) : List Char → Bool
  | [] => isPrefixOfB pat []
  | c :: rest => isPrefixOfB pat (c :: rest) || containsB pat rest

/-- `pat` occurs as a substring of `s`. -/
def strContains (s pat : String) : Bool :=
  containsB pat.toList s.toList

theorem lookup_set_same (m : List (Nat × PendingResponse)) (k : Nat) (p : PendingResponse) :
    lookupResponse (setResponse m k p) k = some p := by
  induction m with
  | nil => simp [setResponse, lookupResponse]
  | cons hd tl ih =>
      obtain ⟨a, v⟩ := hd
      by_cases h : a = k
      · simp [setResponse, h, lookupResponse]
      · simp [setResponse, h, lookupResponse, ih]

theorem lookup_set_other (m : List (Nat × PendingResponse)) (k j : Nat) (p : PendingResponse)
    (h : k ≠ j) : lookupResponse (setResponse m k p) j = lookupResponse m j := by
  induction m with
  | nil => simp [setResponse, lookupResponse, h]
  | cons hd tl ih =>
      obtain ⟨a, v⟩ := hd
      by_cases ha : a = k
      · subst ha
        simp [setResponse, lookupResponse, h]
      · simp [setResponse, ha, lookupResponse, ih]

theorem foldl_handle_no_headers (es : List H3Event) :
    ∀ (m : List (Nat × PendingResponse)) (sid : Nat) (p : PendingResponse),
    lookupResponse m sid = some p → h3HasHeadersFor sid es = false →
    lookupResponse (es.foldl handleH3Event m) sid =
      some ⟨p.headers, p.data ++ h3DataFor sid es⟩ := by
  induction es with
  | nil =>
      intro m sid p hp _
      simpa [h3DataFor] using hp
  | cons e rest ih =>
      intro m sid p hp hnh
      cases e with
      | headersReceived s hs =>
          have hcons : (decide (s = sid) || h3HasHeadersFor sid rest) = false := by
            simpa [h3HasHeadersFor] using hnh
          have hs' : s ≠ sid := by
            intro hcontra
            simp [hcontra] at hcons
          have hrest : h3HasHeadersFor sid rest = false := by
            rcases Bool.or_eq_false_iff.mp hcons with ⟨_, h2⟩
            exact h2
          have hstep : lookupResponse (handleH3Event m (.headersReceived s hs)) sid = some p := by
            simpa [handleH3Event, lookup_set_other m s sid ⟨hs, []⟩ hs'] using hp
          simpa [h3DataFor] using ih _ sid p hstep hrest
      | dataReceived s d =>
          have hrest : h3HasHeadersFor sid rest = false := by
            simpa [h3HasHeadersFor] using hnh
          by_cases hs : s = sid
          · subst hs
            have hstep : lookupResponse (handleH3Event m (.dataReceived s d)) s =
                some ⟨p.headers, p.data ++ d⟩ := by
              simp [handleH3Event, hp, lookup_set_same]
            have := ih _ s ⟨p.headers, p.data ++ d⟩ hstep hrest
            simpa [h3DataFor, List.append_assoc] using this
          · have hstep : lookupResponse (handleH3Event m (.dataReceived s d)) sid = some p := by
              cases hl : lookupResponse m s with
              | none => simpa [handleH3Event, hl] using hp
              | some q =>
                  simpa [handleH3Event, hl,
                    lookup_set_other m s sid ⟨q.headers, q.data ++ d⟩ hs] using hp
            simpa [h3DataFor, hs] using ih _ sid p hstep hrest

theorem foldl_handle_isSome (es : List H3Event) :
    ∀ (m : List (Nat × PendingResponse)) (sid : Nat),
    (lookupResponse m sid).isSome = true →
    (lookupResponse (es.foldl handleH3Event m) sid).isSome = true := by
  induction es with
  | nil => intro m sid h; simpa using h
  | cons e rest ih =>
      intro m sid h
      apply ih
      cases e with
      | headersReceived s hs =>
          by_cases hsid : s = sid
          · subst hsid
            simp [handleH3Event, lookup_set_same]
          · simpa [handleH3Event, lookup_set_other m s sid ⟨hs, []⟩ hsid] using h
      | dataReceived s d =>
          cases hl : lookupResponse m s with
          | none => simpa [handleH3Event, hl] using h
          | some q =>
              by_cases hsid : s = sid
              · subst hsid
                simp [handleH3Event, hl, lookup_set_same]
              · simpa [handleH3Event, hl,
                  lookup_set_other m s sid ⟨q.headers, q.data ++ d⟩ hsid] using h

theorem processEvents_no_headers (evs : List QuicEventM) :
    ∀ (st : ClientState) (sid : Nat) (p : PendingResponse),
    lookupResponse st._responses sid = some p →
    hasHeadersFor sid evs = false →
    lookupResponse (processEvents st evs)._responses sid =
      some ⟨p.headers, p.data ++ dataFor sid evs⟩ := by
  induction evs with
  | nil =>
      intro st sid p hp _
      simpa [processEvents, dataFor] using hp
  | cons ev rest ih =>
      intro st sid p hp hnh
      have hev : h3HasHeadersFor sid ev.h3Events = false := by
        have := hnh
        simp [hasHeadersFor, List.any_cons] at this
        exact this.1
      have hrest : hasHeadersFor sid rest = false := by
        have := hnh
        simp [hasHeadersFor, List.any_cons] at this
        simpa [hasHeadersFor] using this.2
      have hstep : lookupResponse (quic_event_received st ev)._responses sid =
          some ⟨p.headers, p.data ++ h3DataFor sid ev.h3Events⟩ :=
        foldl_handle_no_headers ev.h3Events st._responses sid p hp hev
      have := ih (quic_event_received st ev) sid ⟨p.headers, p.data ++ h3DataFor sid ev.h3Events⟩
        hstep hrest
      simpa [processEvents, dataFor, List.append_assoc] using this

theorem processEvents_isSome (evs : List QuicEventM) :
    ∀ (st : ClientState) (sid : Nat),
    (lookupResponse st._responses sid).isSome = true →
    (lookupResponse (processEvents st evs)._responses sid).isSome = true := by
  induction evs with
  | nil => intro st sid h; simpa [processEvents] using h
  | cons ev rest ih =>
      intro st sid h
      have hstep : (lookupResponse (quic_event_received st ev)._responses sid).isSome = true :=
        foldl_handle_isSome ev.h3Events st._responses sid h
      simpa [processEvents] using ih (quic_event_received st ev) sid hstep

theorem pollLoop_true_iff (c : Option Nat) (T : Nat) :
    ∀ (fuel k : Nat), 10 * k ≤ 10 * (T / 10 + 1) →
    10 * (T / 10 + 1) < 10 * k + 10 * fuel →
    (pollLoop c T fuel (10 * k) = true ↔
      ∃ v, c = some v ∧ v ≤ 10 * (T / 10 + 1)) := by
  intro fuel
  induction fuel with
  | zero => intro k h1 h2; omega
  | succ n ih =>
      intro k h1 h2
      by_cases hf : flagAt c (10 * k) = true
      · cases c with
        | none => simp [flagAt] at hf
        | some v =>
            have hv : v ≤ 10 * k := by simpa [flagAt] using hf
            have hres : pollLoop (some v) T (n + 1) (10 * k) = true := by
              simp [pollLoop, hf]
            exact iff_of_true hres ⟨v, rfl, by omega⟩
      · have hf' : flagAt c (10 * k) = false := by
          cases hb : flagAt c (10 * k) with
          | false => rfl
          | true => exact absurd hb hf
        by_cases ht : T < 10 * k
        · have hk : 10 * k = 10 * (T / 10 + 1) := by omega
          simp only [pollLoop, hf', Bool.false_eq_true, if_false, if_pos ht]
          constructor
          · intro h; cases h
          · rintro ⟨v, hv, hle⟩
            subst hv
            have : flagAt (some v) (10 * k) = true := by
              simp [flagAt]; omega
            rw [this] at hf'
            cases hf'
        · have hT : 10 * k ≤ T := by omega
          have hrec : pollLoop c T (n + 1) (10 * k) = pollLoop c T n (10 * (k + 1)) := by
            have harith : 10 * k + 10 = 10 * (k + 1) := by ring
            simp only [pollLoop, hf', Bool.false_eq_true, if_false, if_neg ht, harith]
          rw [hrec]
          exact ih (k + 1) (by omega) (by omega)

theorem pollWait_true_iff (c : Option Nat) (T : Nat) :
    pollWait c T = true ↔ ∃ v, c = some v ∧ v ≤ 10 * (T / 10 + 1) := by
  have h := pollLoop_true_iff c T (T / 10 + 2) 0 (by omega) (by omega)
  simpa [pollWait] using h

theorem pollWait_seconds (c : Option Nat) (s : Nat) :
    pollWait c (s * 1000) = true ↔ ∃ v, c = some v ∧ v ≤ s * 1000 + 10 := by
  rw [pollWait_true_iff]
  constructor <;> rintro ⟨v, h1, h2⟩ <;> exact ⟨v, h1, by omega⟩

theorem pollWait_none (T : Nat) : pollWait none T = false := by
  cases h : pollWait none T with
  | false => rfl
  | true =>
      obtain ⟨v, hv, _⟩ := (pollWait_true_iff none T).mp h
      cases hv

theorem isPrefixOfB_refl (l : List Char) : isPrefixOfB l l = true := by
  induction l with
  | nil => rfl
  | cons a as ih => simp [isPrefixOfB, ih]

theorem containsB_self (pat : List Char) : containsB pat pat = true := by
  cases pat with
  | nil => rfl
  | cons c cs => simp [containsB, isPrefixOfB_refl]

theorem containsB_append (pat xs : List Char) : containsB pat (xs ++ pat) = true := by
  induction xs with
  | nil => simpa using containsB_self pat
  | cons x xs ih => simp [containsB, ih]

theorem strContains_suffix (s pat : String) : strContains (s ++ pat) pat = true := by
  have h : (s ++ pat).toList = s.toList ++ pat.toList := by
    cases s; cases pat; rfl
  rw [strContains, h]
  exact containsB_append _ _

theorem findStatus_eq_none (hs : List (String × String))
    (h : ∀ nv ∈ hs, nv.1 ≠ ":status") : findStatus hs = none := by
  induction hs with
  | nil => rfl
  | cons a rest ih =>
      obtain ⟨n, v⟩ := a
      have hn : n ≠ ":status" := h (n, v) (List.mem_cons_self _ _)
      simp only [findStatus, hn, if_false]
      exact ih (fun nv hm => h nv (List.mem_cons_of_mem _ hm))

theorem findStatus_first (pre : List (String × String)) (v : String)
    (rest : List (String × String)) (h : ∀ nv ∈ pre, nv.1 ≠ ":status") :
    findStatus (pre ++ (":status", v) :: rest) = some v := by
  induction pre with
  | nil => simp [findStatus]
  | cons a tl ih =>
      obtain ⟨n, w⟩ := a
      have hn : n ≠ ":status" := h (n, w) (List.mem_cons_self _ _)
      simp only [List.cons_append, findStatus, hn, if_false]
      exact ih (fun nv hm => h nv (List.mem_cons_of_mem _ hm))

theorem print_summary_verdict_eq_all (rs : List TestResult) :
    print_summary_verdict rs = rs.all (fun r => r.passed) := by
  induction rs with
  | nil => rfl
  | cons r rest ih =>
      by_cases h : r.passed = true
      · simpa [print_summary_verdict, List.filter_cons, h, List.all_cons] using ih
      · have h' : r.passed = false := by
          cases hb : r.passed with
          | false => rfl
          | true => exact absurd hb h
        simp [print_summary_verdict, List.filter_cons, h', List.all_cons]

theorem test_quic_handshake_name (out : HandshakeOutcome) (T dur : Nat) :
    (test_quic_handshake out T dur).test_name = "QUIC Handshake" := by
  cases out with
  | completesAt c =>
      by_cases h : pollWait c (T * 1000) = true <;> simp [test_quic_handshake, h]
  | connectExn a b =>
      by_cases h : a = "TimeoutError" <;> simp [test_quic_handshake, h]

theorem test_http3_request_name (out : RequestOutcome) (dur : Nat) :
    (test_http3_request out dur).test_name = "HTTP/3 Request" := by
  cases out <;> rfl

/-- Claim C1 (counterexample): the claim is false for a configured timeout
of 10 seconds.  The handshake wait uses the configured value (10 s), but
`send_request`'s polling loop uses its hard-coded 5-second bound, so a
response first present at 7 s — well before the configured 10-second
timeout — is nevertheless reported as a request timeout. -/
theorem C1_counterexample :
    handshake_wait_timeout_s ⟨"127.0.0.1", 8443, 10⟩ = 10
    ∧ send_request_timeout_s ≠ 10
    ∧ send_request_wait (some 7000) = false
    ∧ 7000 ≤ 10 * 1000 := by
  refine ⟨rfl, by decide, ?_, by omega⟩
  cases hb : send_request_wait (some 7000) with
  | false => rfl
  | true =>
      have h : pollWait (some 7000) (5 * 1000) = true := hb
      obtain ⟨v, hv, hle⟩ := (pollWait_seconds (some 7000) 5).mp h
      cases hv
      omega

/-- Claim C1 (amended): the handshake wait uses the configured per-check
timeout, but the `FullRequestResponse` check's wait for a response always
uses the 5-second value hard-coded in `send_request`, whatever timeout is
configured; `send_request`'s polling loop signals a request timeout exactly
when no `PendingResponse` exists for the request's stream by the first
10 ms poll past those 5 seconds. -/
theorem C1_request_timeout_fixed :
    ∀ (cfg : QuicValidatorCfg) (arrival : Option Nat),
    handshake_wait_timeout_s cfg = cfg.timeout
    ∧ send_request_timeout_s = 5
    ∧ (send_request_wait arrival = true ↔
        ∃ v, arrival = some v ∧ v ≤ send_request_timeout_s * 1000 + 10) := by
  intro cfg arrival
  exact ⟨rfl, rfl, pollWait_seconds arrival 5⟩

/-- Claim C2 (counterexample): a stream identifier can be re-associated
with a different `PendingResponse` within one session.  After headers and
two body bytes have arrived on stream 0, a second `HeadersReceived` event
for stream 0 replaces the stored `PendingResponse` by a fresh one whose
body is empty, so the object is not preserved and the body is not
append-only. -/
theorem C2_counterexample :
    lookupResponse (processEvents ⟨[], false⟩
      [⟨false, [.headersReceived 0 [("a", "b")]]⟩,
       ⟨false, [.dataReceived 0 [1, 2]]⟩])._responses 0
      = some ⟨[("a", "b")], [1, 2]⟩
    ∧ lookupResponse (processEvents ⟨[], false⟩
      [⟨false, [.headersReceived 0 [("a", "b")]]⟩,
       ⟨false, [.dataReceived 0 [1, 2]]⟩,
       ⟨false, [.headersReceived 0 [("c", "d")]]⟩])._responses 0
      = some ⟨[("c", "d")], []⟩
    ∧ (⟨[("a", "b")], [1, 2]⟩ : PendingResponse) ≠ ⟨[("c", "d")], []⟩ := by
  refine ⟨rfl, rfl, by decide⟩

/-- Claim C2 (amended): once a stream identifier is associated with a
`PendingResponse` it remains associated with some `PendingResponse` for
the rest of the session; and as long as no further `HeadersReceived`
event arrives for that stream, the stored `PendingResponse` keeps its
headers and its body grows exactly by the bytes of the stream's
`DataReceived` events, in arrival order.  (A repeated `HeadersReceived`
replaces the entry last-write-wins, as the counterexample shows.) -/
theorem C2_preserved_without_reheaders :
    (∀ (st : ClientState) (evs : List QuicEventM) (sid : Nat) (p : PendingResponse),
      lookupResponse st._responses sid = some p →
      hasHeadersFor sid evs = false →
      lookupResponse (processEvents st evs)._responses sid =
        some ⟨p.headers, p.data ++ dataFor sid evs⟩)
    ∧ (∀ (st : ClientState) (evs : List QuicEventM) (sid : Nat),
      (lookupResponse st._responses sid).isSome = true →
      (lookupResponse (processEvents st evs)._responses sid).isSome = true) :=
  ⟨fun st evs sid p hp hnh => processEvents_no_headers evs st sid p hp hnh,
   fun st evs sid h => processEvents_isSome evs st sid h⟩

/-- Claim C2 (witness): the amended theorem applied to a concrete session
state holding stream 0 with body `[1]`, processing one data event with
bytes `[2, 3]`. -/
theorem C2_witness :
    lookupResponse (processEvents ⟨[(0, ⟨[("a", "b")], [1]⟩)], false⟩
      [⟨false, [.dataReceived 0 [2, 3]]⟩])._responses 0
      = some ⟨[("a", "b")], [1, 2, 3]⟩
    ∧ (lookupResponse (processEvents ⟨[(0, ⟨[("a", "b")], [1]⟩)], false⟩
      [⟨true, []⟩])._responses 0).isSome = true := by
  constructor
  · exact C2_preserved_without_reheaders.1 ⟨[(0, ⟨[("a", "b")], [1]⟩)], false⟩
      [⟨false, [.dataReceived 0 [2, 3]]⟩] 0 ⟨[("a", "b")], [1]⟩ rfl rfl
  · exact C2_preserved_without_reheaders.2 ⟨[(0, ⟨[("a", "b")], [1]⟩)], false⟩
      [⟨true, []⟩] 0 rfl

/-- Claim C3 (counterexample): when the delivered headers contain no
`:status` entry the check fails as claimed, but its message is
`"No status in response"` (capital N), not the claimed
`"no status in response"`. -/
theorem C3_counterexample :
    (test_http3_request (.response [("content-type", "text/html")] []) 0).passed = false
    ∧ (test_http3_request (.response [("content-type", "text/html")] []) 0).message
        = "No status in response"
    ∧ (test_http3_request (.response [("content-type", "text/html")] []) 0).message
        ≠ "no status in response" := by
  refine ⟨rfl, rfl, by decide⟩

/-- Claim C3 (amended): headers `[(":status", "200")]` delivered before
the timeout give a passed result whose message contains `"200"`; headers
with no `:status` entry give a failed result with the exact message
`"No status in response"`. -/
theorem C3_status_result :
    ∀ (dur : Nat) (data : List Nat) (headers : List (String × String)),
    ((test_http3_request (.response [(":status", "200")] data) dur).passed = true
     ∧ strContains (test_http3_request (.response [(":status", "200")] data) dur).message
         "200" = true)
    ∧ ((∀ nv ∈ headers, nv.1 ≠ ":status") →
       (test_http3_request (.response headers data) dur).passed = false
       ∧ (test_http3_request (.response headers data) dur).message
           = "No status in response") := by
  intro dur data headers
  constructor
  · refine ⟨rfl, ?_⟩
    have hm : (test_http3_request (.response [(":status", "200")] data) dur).message
        = "Received HTTP response (status: 200)" := rfl
    rw [hm]
    decide
  · intro h
    have hn := findStatus_eq_none headers h
    exact ⟨by simp [test_http3_request, hn],
           by simp [test_http3_request, statusMessage, hn]⟩

/-- Claim C3 (witness): the amended theorem applied to the concrete
status-less header list `[("content-type", "text/html")]`. -/
theorem C3_witness :
    (test_http3_request (.response [("content-type", "text/html")] [7]) 3).passed = false
    ∧ (test_http3_request (.response [("content-type", "text/html")] [7]) 3).message
        = "No status in response" :=
  (C3_status_result 3 [7] [("content-type", "text/html")]).2 (by decide)

/-- Claim C4: the exit code is 0 iff aioquic is available and every
executed check passed, it is 1 otherwise; when aioquic is unavailable the
run exits 1 with no check executed; and `print_summary`'s verdict is the
logical AND across all `TestResult.passed` values. -/
theorem C4_exit_code :
    ∀ (avail : Bool) (T : Nat) (env : RunEnv),
    ((mainRun avail T env).1 = 0 ↔
      (avail = true ∧ ((mainRun avail T env).2.all (fun r => r.passed)) = true))
    ∧ mainRun false T env = (1, [])
    ∧ ((mainRun avail T env).1 = 0 ∨ (mainRun avail T env).1 = 1)
    ∧ print_summary_verdict (run_all_tests T env).1
        = ((run_all_tests T env).1.all (fun r => r.passed)) := by
  intro avail T env
  refine ⟨?_, rfl, ?_, print_summary_verdict_eq_all _⟩
  · cases avail with
    | false => simp [mainRun]
    | true =>
        have h1 : (mainRun true T env).1
            = if print_summary_verdict (run_all_tests T env).1 then 0 else 1 := rfl
        have h2 : (mainRun true T env).2 = (run_all_tests T env).1 := rfl
        rw [h1, h2, print_summary_verdict_eq_all]
        cases h : (run_all_tests T env).1.all (fun r => r.passed) <;> simp [h]
  · cases avail with
    | false => right; rfl
    | true =>
        have h1 : (mainRun true T env).1
            = if print_summary_verdict (run_all_tests T env).1 then 0 else 1 := rfl
        rw [h1]
        cases h : print_summary_verdict (run_all_tests T env).1 <;> simp [h]

/-- Claim C5 (counterexample): a transport whose handshake-complete flag
turns true at exactly 5000 ms — not strictly before the 5-second timeout
elapses — still yields a passed result, because the loop checks the flag
first and uses the strict comparison `elapsed > timeout`. -/
theorem C5_counterexample :
    (test_quic_handshake (.completesAt (some 5000)) 5 0).passed = true
    ∧ ¬ (5000 < 5 * 1000) := by
  refine ⟨?_, by omega⟩
  have h : pollWait (some 5000) (5 * 1000) = true :=
    (pollWait_seconds (some 5000) 5).mpr ⟨5000, rfl, by omega⟩
  simp [test_quic_handshake, h]

/-- Claim C5 (amended): the HandshakeOnly check passes iff the
handshake-complete flag turns true by the first 10 ms poll at which the
elapsed time strictly exceeds the configured timeout (that is, within
`T * 1000 + 10` ms — at-or-slightly-after the boundary also passes, not
only strictly before); completion at 1 ms with a 5 s timeout passes, and
a transport that never signals completion fails with message
"Handshake timeout". -/
theorem C5_handshake_pass_iff :
    ∀ (T dur : Nat) (c : Option Nat),
    ((test_quic_handshake (.completesAt c) T dur).passed = true ↔
      ∃ v, c = some v ∧ v ≤ T * 1000 + 10)
    ∧ (test_quic_handshake (.completesAt none) T dur).passed = false
    ∧ (test_quic_handshake (.completesAt none) T dur).message = "Handshake timeout"
    ∧ (test_quic_handshake (.completesAt (some 1)) 5 dur).passed = true := by
  intro T dur c
  have hnone : pollWait none (T * 1000) = false := pollWait_none _
  have h1 : pollWait (some 1) (5 * 1000) = true :=
    (pollWait_seconds (some 1) 5).mpr ⟨1, rfl, by omega⟩
  have hpass : (test_quic_handshake (.completesAt c) T dur).passed = pollWait c (T * 1000) := by
    cases hw : pollWait c (T * 1000) <;> simp [test_quic_handshake, hw]
  refine ⟨?_, by simp [test_quic_handshake, hnone], by simp [test_quic_handshake, hnone],
    by simp [test_quic_handshake, h1]⟩
  rw [hpass]
  exact pollWait_seconds c T

/-- Claim C6 (counterexample): an exception of type `TimeoutError` raised
while establishing the handshake-check connection is caught by the
dedicated `except TimeoutError` handler, so its `TestResult` message
("Handshake timeout") does not contain the exception's type name and its
details are the fixed timeout text, not the exception's message. -/
theorem C6_counterexample :
    (test_quic_handshake (.connectExn "TimeoutError" "connection timed out") 5 0).passed = false
    ∧ strContains
        (test_quic_handshake (.connectExn "TimeoutError" "connection timed out") 5 0).message
        "TimeoutError" = false
    ∧ (test_quic_handshake (.connectExn "TimeoutError" "connection timed out") 5 0).details
        ≠ some "connection timed out" := by
  refine ⟨rfl, ?_, by decide⟩
  have hm : (test_quic_handshake (.connectExn "TimeoutError" "connection timed out") 5 0).message
      = "Handshake timeout" := rfl
  rw [hm]
  decide

/-- Claim C6 (amended): every exception raised during a check is caught
and turned into a failed `TestResult`; for the request check, and for the
handshake check whenever the exception's type is not `TimeoutError`, the
message contains the exception's type name and the details carry the
exception's message; a `TimeoutError` in the handshake check is reported
as the fixed "Handshake timeout" result instead. -/
theorem C6_exception_reporting :
    ∀ (ename emsg : String) (T dur : Nat),
    (ename ≠ "TimeoutError" →
      ((test_quic_handshake (.connectExn ename emsg) T dur).passed = false
       ∧ strContains (test_quic_handshake (.connectExn ename emsg) T dur).message ename = true
       ∧ (test_quic_handshake (.connectExn ename emsg) T dur).details = some emsg))
    ∧ ((test_http3_request (.exn ename emsg) dur).passed = false
       ∧ strContains (test_http3_request (.exn ename emsg) dur).message ename = true
       ∧ (test_http3_request (.exn ename emsg) dur).details = some emsg)
    ∧ ((test_quic_handshake (.connectExn "TimeoutError" emsg) T dur).passed = false
       ∧ (test_quic_handshake (.connectExn "TimeoutError" emsg) T dur).message
           = "Handshake timeout") := by
  intro ename emsg T dur
  refine ⟨?_, ⟨rfl, ?_, rfl⟩, rfl, rfl⟩
  · intro hne
    refine ⟨by simp [test_quic_handshake, hne], ?_, by simp [test_quic_handshake, hne]⟩
    have hm : (test_quic_handshake (.connectExn ename emsg) T dur).message
        = "Handshake failed: " ++ ename := by simp [test_quic_handshake, hne]
    rw [hm]
    exact strContains_suffix "Handshake failed: " ename
  · have hm : (test_http3_request (.exn ename emsg) dur).message
        = "Request failed: " ++ ename := rfl
    rw [hm]
    exact strContains_suffix "Request failed: " ename

/-- Claim C6 (witness): the amended theorem applied to a concrete
connection-refused exception in the handshake check. -/
theorem C6_witness :
    (test_quic_handshake (.connectExn "ConnectionRefusedError" "refused") 5 0).passed = false
    ∧ strContains
        (test_quic_handshake (.connectExn "ConnectionRefusedError" "refused") 5 0).message
        "ConnectionRefusedError" = true
    ∧ (test_quic_handshake (.connectExn "ConnectionRefusedError" "refused") 5 0).details
        = some "refused" :=
  (C6_exception_reporting "ConnectionRefusedError" "refused" 5 0).1 (by decide)

/-- Claim C7: the orchestrator runs exactly the two checks in the fixed
order HandshakeOnly then FullRequestResponse, appending one `TestResult`
per check in that order, pauses a fixed 500 ms after each check, and the
second check's result does not depend on the first check's transport
outcome or duration. -/
theorem C7_orchestrator :
    ∀ (T : Nat) (env : RunEnv) (h2 : HandshakeOutcome) (hd2 : Nat),
    (run_all_tests T env).1
      = [test_quic_handshake env.handshake T env.hdur,
         test_http3_request env.request env.rdur]
    ∧ ((run_all_tests T env).1.map (fun r => r.test_name))
        = ["QUIC Handshake", "HTTP/3 Request"]
    ∧ (run_all_tests T env).2 = [500, 500]
    ∧ (run_all_tests T { env with handshake := h2, hdur := hd2 }).1[1]?
        = (run_all_tests T env).1[1]? := by
  intro T env h2 hd2
  refine ⟨rfl, ?_, rfl, rfl⟩
  simp [run_all_tests, test_quic_handshake_name, test_http3_request_name]

/-- Claim C8: a `DataReceived` event appends its bytes to the existing
`PendingResponse`'s body when one exists for the event's stream (leaving
every other stream's entry untouched), and is silently dropped — the
mapping entirely unchanged — when none exists. -/
theorem C8_data_received :
    ∀ (m : List (Nat × PendingResponse)) (sid : Nat) (d : List Nat),
    (∀ p, lookupResponse m sid = some p →
      lookupResponse (handleH3Event m (.dataReceived sid d)) sid
        = some ⟨p.headers, p.data ++ d⟩
      ∧ ∀ s, s ≠ sid →
          lookupResponse (handleH3Event m (.dataReceived sid d)) s = lookupResponse m s)
    ∧ (lookupResponse m sid = none → handleH3Event m (.dataReceived sid d) = m) := by
  intro m sid d
  constructor
  · intro p hp
    constructor
    · simp [handleH3Event, hp, lookup_set_same]
    · intro s hs
      simp only [handleH3Event, hp]
      exact lookup_set_other m sid s ⟨p.headers, p.data ++ d⟩ (fun h => hs h.symm)
  · intro hn
    simp [handleH3Event, hn]

/-- Claim C8 (witness): the theorem applied to a map holding stream 0
with body `[1]` (append case) and to the empty map (drop case). -/
theorem C8_witness :
    lookupResponse (handleH3Event [(0, ⟨[("a", "b")], [1]⟩)] (.dataReceived 0 [2])) 0
      = some ⟨[("a", "b")], [1, 2]⟩
    ∧ handleH3Event [] (.dataReceived 0 [2]) = [] := by
  constructor
  · exact ((C8_data_received [(0, ⟨[("a", "b")], [1]⟩)] 0 [2]).1 ⟨[("a", "b")], [1]⟩ rfl).1
  · exact (C8_data_received [] 0 [2]).2 rfl

/-- Claim C9: the handshake-complete flag is monotonic — once
`is_handshake_complete` returns true, processing any further sequence of
QUIC events never makes it return false again. -/
theorem C9_handshake_monotonic :
    ∀ (st : ClientState) (evs : List QuicEventM),
    is_handshake_complete st = true →
    is_handshake_complete (processEvents st evs) = true := by
  intro st evs
  induction evs generalizing st with
  | nil => intro h; exact h
  | cons ev rest ih =>
      intro h
      have hstep : is_handshake_complete (quic_event_received st ev) = true := by
        simp only [is_handshake_complete, quic_event_received] at h ⊢
        cases ev.isHandshakeCompleted <;> simp [h]
      exact ih (quic_event_received st ev) hstep

/-- Claim C9 (witness): the theorem applied to a state whose flag is
already true and a concrete two-event suffix. -/
theorem C9_witness :
    is_handshake_complete (processEvents ⟨[], true⟩
      [⟨false, [.headersReceived 0 [("x", "y")]]⟩, ⟨true, []⟩]) = true :=
  C9_handshake_monotonic ⟨[], true⟩
    [⟨false, [.headersReceived 0 [("x", "y")]]⟩, ⟨true, []⟩] rfl

/-- Claim C10: with several `:status` entries in the header list, the
status value used by the FullRequestResponse check is that of the first
`:status` entry in insertion order, and later entries are ignored
entirely: the produced `TestResult` is identical to the one produced
when everything after the first `:status` entry is dropped.  The passed
flag (`status is not None`) is true whatever the first value is; the
message names that first value whenever it is non-empty (Python's
`if status` truthiness renders an empty first value as
"No status in response" instead). -/
theorem C10_first_status_wins :
    ∀ (dur : Nat) (data : List Nat) (pre : List (String × String)) (v : String)
      (rest : List (String × String)),
    (∀ nv ∈ pre, nv.1 ≠ ":status") →
    findStatus (pre ++ (":status", v) :: rest) = some v
    ∧ (test_http3_request (.response (pre ++ (":status", v) :: rest) data) dur).passed = true
    ∧ test_http3_request (.response (pre ++ (":status", v) :: rest) data) dur
        = test_http3_request (.response (pre ++ [(":status", v)]) data) dur
    ∧ (v ≠ "" →
        (test_http3_request (.response (pre ++ (":status", v) :: rest) data) dur).message
          = "Received HTTP response (status: " ++ v ++ ")") := by
  intro dur data pre v rest h
  have hf := findStatus_first pre v rest h
  have hf1 : findStatus (pre ++ [(":status", v)]) = some v := findStatus_first pre v [] h
  refine ⟨hf, by simp [test_http3_request, hf], ?_, ?_⟩
  · simp [test_http3_request, hf, hf1]
  · intro hv
    simp [test_http3_request, hf, statusMessage, hv]

/-- Claim C10 (witness): two `:status` entries, `"200"` then `"404"`; the
check's result is determined by the first entry alone and its message
names `"200"`. -/
theorem C10_witness :
    findStatus [(":status", "200"), (":status", "404")] = some "200"
    ∧ (test_http3_request
        (.response [(":status", "200"), (":status", "404")] []) 0).passed = true
    ∧ test_http3_request (.response [(":status", "200"), (":status", "404")] []) 0
        = test_http3_request (.response [(":status", "200")] []) 0
    ∧ (test_http3_request
        (.response [(":status", "200"), (":status", "404")] []) 0).message
        = "Received HTTP response (status: " ++ "200" ++ ")" := by
  have h := C10_first_status_wins 0 [] [] "200" [(":status", "404")] (by simp)
  exact ⟨h.1, h.2.1, h.2.2.1, h.2.2.2 (by decide)⟩
